import Mathlib

/-!
Shallow embedding of the toy DNS server (Rust sources under `src/`) used to
check the repository's natural-language specification.

Modelling conventions:
- Rust byte buffers (`&[u8]`, `Vec<u8>`) are `List Nat`, one `Nat` per byte;
  multi-byte reads are big-endian, as in the source (`bytes::Buf`).
- Rust `String` values (DNS names, zone names) are modelled by their UTF-8
  byte sequences, again `List Nat`; `ends_with`, `split('.')`,
  `format!("{}.{}", a, b)` and `is_empty` are byte-wise operations in the
  source and are translated to the corresponding list operations.
- Fallible parsing returns `PRes`, with `.err` for the source's
  `Err(ParseError::new(..))` returns (one constructor per distinct message)
  and `.panic` standing for an unchecked `bytes::Buf` read past the end of
  the buffer, which panics in Rust.  Loops are translated with an explicit
  fuel argument that the callers instantiate with the buffer length; fuel
  exhaustion also maps to `.panic` and is proved unreachable.
- The source declares structurally identical enumerations twice
  (`question::QType` vs `record_type::Type`, `question::QClass` vs
  `protocol_class::Class`); the embedding identifies each pair and keeps the
  `question.rs` names.
-/

namespace ToyDns

/-- Distinct `ParseError` messages of the source, one constructor each. -/
inductive PErr where
  | headerTooShort
  | zBit
  | nameEof
  | nameCompression
  | labelTooLong
  | labelUtf8
  | questionTooShort
  | answerTooShort
  | rdataTooShort
  | aLen
  | aaaaLen
deriving DecidableEq

/-- Result of a fallible parse: success, a `ParseError`, or a Rust panic
(an unchecked `bytes::Buf` read past the end of the buffer). -/
inductive PRes (α : Type) where
  | ok : α → PRes α
  | err : PErr → PRes α
  | panic : PRes α
deriving DecidableEq

def PRes.bind {α β : Type} : PRes α → (α → PRes β) → PRes β
  | .ok a, f => f a
  | .err e, _ => .err e
  | .panic, _ => .panic

def PRes.isOk {α : Type} : PRes α → Bool
  | .ok _ => true
  | _ => false

/-- `Buf::get_u8`: panics when the buffer is empty. -/
def getU8 : List Nat → PRes (Nat × List Nat)
  | [] => .panic
  | a :: r => .ok (a, r)

/-- `Buf::get_u16` (big-endian): panics when fewer than 2 bytes remain. -/
def getU16 : List Nat → PRes (Nat × List Nat)
  | a :: b :: r => .ok (a * 256 + b, r)
  | _ => .panic

/-- `Buf::get_u32` (big-endian): panics when fewer than 4 bytes remain. -/
def getU32 : List Nat → PRes (Nat × List Nat)
  | a :: b :: c :: d :: r => .ok (((a * 256 + b) * 256 + c) * 256 + d, r)
  | _ => .panic

/-- `BufMut::put_u16`: two big-endian bytes (Rust `u16` wraps mod 2^16). -/
def u16be (n : Nat) : List Nat := [n / 256 % 256, n % 256]

/-- `BufMut::put_u32`: four big-endian bytes. -/
def u32be (n : Nat) : List Nat :=
  [n / 16777216 % 256, n / 65536 % 256, n / 256 % 256, n % 256]

/-- UTF-8 acceptance automaton of `String::from_utf8` (RFC 3629 table):
`pending` continuation bytes are still expected, the next of which must lie
in `[lo, hi]`; later continuation bytes must lie in `[0x80, 0xBF]`. -/
def utf8Run : List Nat → Nat → Nat → Nat → Bool
  | [], pending, _, _ => pending = 0
  | b :: rest, 0, _, _ =>
    if b ≤ 0x7F then utf8Run rest 0 0 0
    else if 0xC2 ≤ b && b ≤ 0xDF then utf8Run rest 1 0x80 0xBF
    else if b = 0xE0 then utf8Run rest 2 0xA0 0xBF
    else if (0xE1 ≤ b && b ≤ 0xEC) || b = 0xEE || b = 0xEF then
      utf8Run rest 2 0x80 0xBF
    else if b = 0xED then utf8Run rest 2 0x80 0x9F
    else if b = 0xF0 then utf8Run rest 3 0x90 0xBF
    else if 0xF1 ≤ b && b ≤ 0xF3 then utf8Run rest 3 0x80 0xBF
    else if b = 0xF4 then utf8Run rest 3 0x80 0x8F
    else false
  | b :: rest, pending + 1, lo, hi =>
    if lo ≤ b && b ≤ hi then utf8Run rest pending 0x80 0xBF else false

/-- `String::from_utf8(label).is_ok()`. -/
def validUtf8 (l : List Nat) : Bool := utf8Run l 0 0 0

/-! ## `packet/header.rs` -/

inductive OpCode where
  | QUERY
  | IQUERY
  | STATUS
  | RESERVED
deriving DecidableEq

def parse_opcode (opcode : Nat) : OpCode :=
  if opcode = 0 then .QUERY
  else if opcode = 1 then .IQUERY
  else if opcode = 2 then .STATUS
  else .RESERVED

def OpCode.to_u8 : OpCode → Nat
  | .QUERY => 0
  | .IQUERY => 1
  | .STATUS => 2
  | .RESERVED => 3

inductive RCode where
  | NoError
  | FormErr
  | ServFail
  | NXDomain
  | NotImp
  | Refused
  | RESERVED
deriving DecidableEq

def parse_rcode (rcode : Nat) : RCode :=
  if rcode = 0 then .NoError
  else if rcode = 1 then .FormErr
  else if rcode = 2 then .ServFail
  else if rcode = 3 then .NXDomain
  else if rcode = 4 then .NotImp
  else if rcode = 5 then .Refused
  else .RESERVED

def RCode.to_u8 : RCode → Nat
  | .NoError => 0
  | .FormErr => 1
  | .ServFail => 2
  | .NXDomain => 3
  | .NotImp => 4
  | .Refused => 5
  | .RESERVED => 15

structure DnsHeader where
  transaction_id : Nat
  response : Bool
  opcode : OpCode
  authoritative_answer : Bool
  truncation : Bool
  recursion_desired : Bool
  recursion_available : Bool
  reserved : Bool
  authenticated_data : Bool
  checking_disabled : Bool
  rcode : RCode
  qd_count : Nat
  an_count : Nat
  ns_count : Nat
  ar_count : Nat
deriving DecidableEq

/-- `DnsHeader::serialize`. The source field `_reserved` is `reserved` here. -/
def DnsHeader.serialize (h : DnsHeader) : List Nat :=
  let byte2 := (h.response.toNat <<< 7) ||| (h.opcode.to_u8 <<< 3) |||
    (h.authoritative_answer.toNat <<< 2) ||| (h.truncation.toNat <<< 1) |||
    h.recursion_desired.toNat
  let byte3 := (h.recursion_available.toNat <<< 7) |||
    (h.reserved.toNat <<< 6) ||| (h.authenticated_data.toNat <<< 5) |||
    (h.checking_disabled.toNat <<< 4) ||| h.rcode.to_u8
  u16be h.transaction_id ++ [byte2, byte3] ++ u16be h.qd_count ++
    u16be h.an_count ++ u16be h.ns_count ++ u16be h.ar_count

/-- `parse_dns_header`.  Note the source tests bit 4 of byte 3 in its
"Z bit" check, and reads the byte-3 flags by comparing the whole shifted
byte with 1 (`(byte3 >> 6) == 1`) instead of masking one bit. -/
def parse_dns_header (buf : List Nat) : PRes (DnsHeader × List Nat) :=
  if buf.length < 12 then .err .headerTooShort
  else
    (getU16 buf).bind fun (transaction_id, b1) =>
    (getU8 b1).bind fun (byte2, b2) =>
    (getU8 b2).bind fun (byte3, b3) =>
    (getU16 b3).bind fun (qd_count, b4) =>
    (getU16 b4).bind fun (an_count, b5) =>
    (getU16 b5).bind fun (ns_count, b6) =>
    (getU16 b6).bind fun (ar_count, rest) =>
    if (byte3 >>> 4) &&& 1 = 1 then .err .zBit
    else
      .ok ({ transaction_id
             response := (byte2 >>> 7) &&& 1 = 1
             opcode := parse_opcode ((byte2 >>> 3) &&& 15)
             authoritative_answer := (byte2 >>> 2) &&& 1 = 1
             truncation := (byte2 >>> 1) &&& 1 = 1
             recursion_desired := byte2 &&& 1 = 1
             recursion_available := byte3 >>> 7 = 1
             reserved := byte3 >>> 6 = 1
             authenticated_data := byte3 >>> 5 = 1
             checking_disabled := byte3 >>> 4 = 1
             rcode := parse_rcode (byte3 &&& 15)
             qd_count, an_count, ns_count, ar_count }, rest)

/-! ## `packet/dns_name.rs` (duplicated verbatim in `packet/answer.rs`) -/

/-- `serialize_dns_name`: split on `.` (byte 46), emit a length byte and the
label bytes per segment, terminate with a zero byte.  `label.len() as u8`
truncates, hence the `% 256`. -/
def serialize_dns_name (name : List Nat) : List Nat :=
  (name.splitOn 46).flatMap (fun label => label.length % 256 :: label) ++ [0]

/-- Label-reading loop of `parse_dns_name`, with explicit fuel (each
iteration consumes at least one byte, so `buf.length` fuel suffices;
exhaustion maps to `.panic` and is proved unreachable). -/
def parse_labels : Nat → List Nat → PRes (List (List Nat) × List Nat)
  | _, [] => .err .nameEof
  | 0, _ :: _ => .panic
  | fuel + 1, len :: rest =>
    if len &&& 0xC0 ≠ 0 then .err .nameCompression
    else if len = 0 then .ok ([], rest)
    else if rest.length < len then .err .labelTooLong
    else if validUtf8 (rest.take len) then
      match parse_labels fuel (rest.drop len) with
      | .ok (labels, r) => .ok (rest.take len :: labels, r)
      | .err e => .err e
      | .panic => .panic
    else .err .labelUtf8

/-- `parse_dns_name`: parsed labels joined with `.` (byte 46). -/
def parse_dns_name (buf : List Nat) : PRes (List Nat × List Nat) :=
  (parse_labels buf.length buf).bind fun (labels, rest) =>
    .ok (List.intercalate [46] labels, rest)

/-! ## `packet/question.rs` (also `record_type.rs` / `protocol_class.rs`) -/

/-- `question::QType`; `record_type::Type` is the identical enumeration. -/
inductive QType where
  | A
  | NS
  | CNAME
  | AAAA
  | Other (n : Nat)
deriving DecidableEq

def QType.parse (qtype : Nat) : QType :=
  if qtype = 1 then .A
  else if qtype = 2 then .NS
  else if qtype = 5 then .CNAME
  else if qtype = 28 then .AAAA
  else .Other qtype

def QType.to_u16 : QType → Nat
  | .A => 1
  | .NS => 2
  | .CNAME => 5
  | .AAAA => 28
  | .Other n => n

/-- `question::QClass`; `protocol_class::Class` is the identical enumeration. -/
inductive QClass where
  | IN
  | Other (n : Nat)
deriving DecidableEq

def QClass.parse (qclass : Nat) : QClass :=
  if qclass = 1 then .IN else .Other qclass

def QClass.to_u16 : QClass → Nat
  | .IN => 1
  | .Other n => n

structure DnsQuestion where
  qname : List Nat
  qtype : QType
  qclass : QClass
deriving DecidableEq

def DnsQuestion.serialize (q : DnsQuestion) : List Nat :=
  serialize_dns_name q.qname ++ u16be q.qtype.to_u16 ++ u16be q.qclass.to_u16

def parse_dns_question (buf : List Nat) : PRes (DnsQuestion × List Nat) :=
  (parse_dns_name buf).bind fun (qname, rest) =>
  if rest.length < 4 then .err .questionTooShort
  else
    (getU16 rest).bind fun (qtype, r1) =>
    (getU16 r1).bind fun (qclass, r2) =>
    .ok ({ qname, qtype := QType.parse qtype, qclass := QClass.parse qclass },
         r2)

/-! ## `packet/answer.rs` -/

/-- `RData`: `A` holds the four `Ipv4Addr` octets, `AAAA` the sixteen
`Ipv6Addr` octets. -/
inductive RData where
  | A (a b c d : Nat)
  | AAAA (octets : List Nat)
  | NS (name : List Nat)
  | CNAME (name : List Nat)
  | Other (data : List Nat)
deriving DecidableEq

def RData.serialize : RData → List Nat
  | .A a b c d => [a, b, c, d]
  | .AAAA octets => octets
  | .NS name => serialize_dns_name name
  | .CNAME name => serialize_dns_name name
  | .Other data => data

structure DnsAnswer where
  name : List Nat
  rtype : QType
  rclass : QClass
  ttl : Nat
  rdata : RData
deriving DecidableEq

def DnsAnswer.serialize (a : DnsAnswer) : List Nat :=
  let rdata_bytes := a.rdata.serialize
  serialize_dns_name a.name ++ u16be a.rtype.to_u16 ++ u16be a.rclass.to_u16 ++
    u32be a.ttl ++ u16be rdata_bytes.length ++ rdata_bytes

/-- `parse_rdata`: buffer-length check first, then kind-specific decode. -/
def parse_rdata (rtype : QType) (rdlength : Nat) (buf : List Nat) :
    PRes (RData × List Nat) :=
  if buf.length < rdlength then .err .rdataTooShort
  else
    match rtype with
    | .A =>
      if rdlength ≠ 4 then .err .aLen
      else
        (getU8 buf).bind fun (a, r1) =>
        (getU8 r1).bind fun (b, r2) =>
        (getU8 r2).bind fun (c, r3) =>
        (getU8 r3).bind fun (d, r4) =>
        .ok (.A a b c d, r4)
    | .AAAA =>
      if rdlength ≠ 16 then .err .aaaaLen
      else .ok (.AAAA (buf.take 16), buf.drop 16)
    | .NS =>
      (parse_dns_name buf).bind fun (name, rest) => .ok (.NS name, rest)
    | .CNAME =>
      (parse_dns_name buf).bind fun (name, rest) => .ok (.CNAME name, rest)
    | .Other _ => .ok (.Other (buf.take rdlength), buf.drop rdlength)

def parse_dns_answer (buf : List Nat) : PRes (DnsAnswer × List Nat) :=
  (parse_dns_name buf).bind fun (name, rest) =>
  if rest.length < 10 then .err .answerTooShort
  else
    (getU16 rest).bind fun (rtype, r1) =>
    (getU16 r1).bind fun (rclass, r2) =>
    (getU32 r2).bind fun (ttl, r3) =>
    (getU16 r3).bind fun (rdlength, r4) =>
    (parse_rdata (QType.parse rtype) rdlength r4).bind fun (rdata, r5) =>
    .ok ({ name, rtype := QType.parse rtype, rclass := QClass.parse rclass,
           ttl, rdata }, r5)

/-! ## `packet/mod.rs` -/

structure DnsPacket where
  header : DnsHeader
  questions : List DnsQuestion
  answers : List DnsAnswer
  unparsed : List Nat
deriving DecidableEq

def DnsPacket.serialize (p : DnsPacket) : List Nat :=
  p.header.serialize ++ p.questions.flatMap DnsQuestion.serialize ++
    p.answers.flatMap DnsAnswer.serialize ++ p.unparsed

/-- The `for _ in 0..count` parsing loops of `parse_dns_query`. -/
def parse_list {α : Type} (pf : List Nat → PRes (α × List Nat)) :
    Nat → List Nat → PRes (List α × List Nat)
  | 0, buf => .ok ([], buf)
  | n + 1, buf =>
    (pf buf).bind fun (x, rest) =>
    (parse_list pf n rest).bind fun (xs, r) =>
    .ok (x :: xs, r)

def parse_dns_query (b : List Nat) : PRes DnsPacket :=
  (parse_dns_header b).bind fun (header, rest) =>
  (parse_list parse_dns_question header.qd_count rest).bind
    fun (questions, rest2) =>
  (parse_list parse_dns_answer header.an_count rest2).bind
    fun (answers, unparsed) =>
  .ok { header, questions, answers, unparsed }

/-! ## `zone_config.rs` -/

structure Record where
  name : List Nat
  record_type : QType
  rdata : RData
deriving DecidableEq

structure Zone where
  ttl : Option Nat
  records : List Record
deriving DecidableEq

/-- The source stores zones in a `HashMap<String, Zone>`; the embedding keeps
an association list in the map's (inherent, arbitrary) iteration order. -/
structure ZoneConfig where
  zones : List (List Nat × Zone)
deriving DecidableEq

/-- `combined_name` computation inside `find_record`:
`if record.name.is_empty() { zone_name } else { format!("{}.{}", record.name, zone_name) }`. -/
def combined_name (record_name zone_name : List Nat) : List Nat :=
  if record_name = [] then zone_name else record_name ++ 46 :: zone_name

/-- Body of `find_record`'s inner `for record in &zone.records` loop. -/
def find_record_step (zone_name : List Nat) (zone : Zone) (domain : List Nat)
    (record_type : QType) (acc : List Record × Nat) (record : Record) :
    List Record × Nat :=
  if combined_name record.name zone_name = domain then
    let ttl := if acc.1 = [] then (zone.ttl.getD 5) else acc.2
    if record.record_type = record_type then (acc.1 ++ [record], ttl)
    else (acc.1, ttl)
  else acc

/-- `find_record`: default TTL 5; zones whose name is not a byte-wise suffix
of the queried domain are skipped (`ends_with` pre-check). -/
def find_record (config : ZoneConfig) (domain : List Nat)
    (record_type : QType) : List Record × Nat :=
  config.zones.foldl
    (fun acc (z : List Nat × Zone) =>
      if ¬ (z.1.isSuffixOf domain) then acc
      else z.2.records.foldl (find_record_step z.1 z.2 domain record_type) acc)
    ([], 5)

/-! ## `lib.rs`: reply construction -/

/-- The `(answers, rcode)` decision of `construct_reply` (its mutable
`answers` vector plus the `rcode` conditional, lines 33-56 of `lib.rs`). -/
def reply_pair (config : ZoneConfig) (query : DnsPacket) :
    List DnsAnswer × RCode :=
  match query.questions with
  | [q] =>
    if q.qclass = QClass.IN then
      let res := find_record config q.qname q.qtype
      if res.1 = [] then ([], RCode.NXDomain)
      else
        (res.1.map (fun record =>
          { name := q.qname, rtype := q.qtype, rclass := q.qclass,
            ttl := res.2, rdata := record.rdata }), RCode.NoError)
    else ([], RCode.Refused)
  | _ => ([], RCode.NotImp)

def construct_reply (config : ZoneConfig) (query : DnsPacket) :
    Option DnsPacket :=
  if query.header.response then none
  else
    let pair := reply_pair config query
    some
      { header :=
          { transaction_id := query.header.transaction_id
            response := true
            opcode := query.header.opcode
            authoritative_answer := false
            truncation := false
            recursion_desired := query.header.recursion_desired
            recursion_available := false
            reserved := false
            authenticated_data := false
            checking_disabled := false
            rcode := pair.2
            qd_count := min query.questions.length 65535
            an_count := min pair.1.length 65535
            ns_count := 0
            ar_count := 0 }
        questions := query.questions
        answers := pair.1
        unparsed := [] }

/-! ## `lib.rs`: transport model

`process_udp`, `process_tcp` and `serve` are `async`; the embedding models
each unit of work as a function of its inputs (the datagram bytes, the
connection's incoming byte stream) returning the `Result` the task completes
with, and models the `serve` loop's reaction to completed tasks
(`tasks.join_next()` followed by `result.unwrap()?`) as a fold over the
completed results.  Successful socket writes are assumed (write failures are
an orthogonal environment input; `process_udp` takes its send outcome as a
parameter). -/

inductive IoErr where
  | invalidData (e : PErr)
  | unexpectedEof
  | sendFailed
  | taskPanicked
deriving DecidableEq

/-- The `Result<(), io::Error>` a unit of work completes with. -/
inductive TaskResult where
  | ok
  | error (e : IoErr)
deriving DecidableEq

/-- One UDP unit of work (`process_udp`): parse, decide, send.  The outcome
of `socket.send_to` is supplied by the environment as `send_result`. -/
def process_udp (config : ZoneConfig) (data : List Nat)
    (send_result : TaskResult) : TaskResult :=
  match parse_dns_query data with
  | .err e => .error (.invalidData e)
  | .panic => .error .taskPanicked
  | .ok packet =>
    match construct_reply config packet with
    | some _ => send_result
    | none => .ok

/-- Frame loop of `process_tcp` over the connection's incoming bytes, with
fuel (each iteration consumes at least the 2-byte length prefix).  A stream
shorter than 2 bytes makes `read_u16` fail with `UnexpectedEof`, which the
source catches and turns into a clean return; a frame body shorter than the
declared length makes `read_exact` fail with `UnexpectedEof`, which is NOT
caught; a parse failure is returned as an error. -/
def tcp_session_go (config : ZoneConfig) : Nat → List Nat → TaskResult
  | _, [] => .ok
  | _, [_] => .ok
  | 0, _ :: _ :: _ => .ok
  | fuel + 1, a :: b :: rest =>
    let length := a * 256 + b
    if rest.length < length then .error .unexpectedEof
    else
      match parse_dns_query (rest.take length) with
      | .err e => .error (.invalidData e)
      | .panic => .error .taskPanicked
      | .ok _ => tcp_session_go config fuel (rest.drop length)

/-- One TCP unit of work (`process_tcp`) on a finite incoming byte stream
closed by the peer at its end. -/
def tcp_session (config : ZoneConfig) (stream : List Nat) : TaskResult :=
  tcp_session_go config stream.length stream

/-- `serve`'s reaction to completed units of work, in completion order:
`Some(result) = tasks.join_next() => { result.unwrap()?; }` — the first
completed task that returns an error terminates the whole serving loop with
that error (`some e`); otherwise the loop keeps serving (`none`). -/
def serve_loop_outcome : List TaskResult → Option IoErr
  | [] => none
  | .ok :: rest => serve_loop_outcome rest
  | .error e :: _ => some e

/-! ## Theorems -/

/-- C1: the claim states that re-serializing any successfully parsed,
compression-free buffer reproduces it byte for byte.  The code violates it:
the 12-byte header `00 00 00 c0 00..00` (recursion-available and reserved
bits both set, no names anywhere) parses successfully, but
`parse_dns_header` reads the byte-3 flags with whole-byte comparisons
(`(byte3 >> 6) == 1` instead of `(byte3 >> 6) & 1 == 1`), so the reserved
bit is lost whenever recursion-available is also set and re-serialization
yields byte 3 = `0x80` ≠ `0xc0`. -/
theorem claim_c1_roundtrip_fails_on_reserved_bit :
    ∃ p : DnsPacket,
      parse_dns_query [0, 0, 0, 192, 0, 0, 0, 0, 0, 0, 0, 0] = .ok p ∧
      p.serialize ≠ [0, 0, 0, 192, 0, 0, 0, 0, 0, 0, 0, 0] ∧
      p.serialize = [0, 0, 0, 128, 0, 0, 0, 0, 0, 0, 0, 0] := by
  refine ⟨{ header := { transaction_id := 0, response := false,
                        opcode := .QUERY, authoritative_answer := false,
                        truncation := false, recursion_desired := false,
                        recursion_available := true, reserved := false,
                        authenticated_data := false,
                        checking_disabled := false, rcode := .NoError,
                        qd_count := 0, an_count := 0, ns_count := 0,
                        ar_count := 0 },
            questions := [], answers := [], unparsed := [] },
         by decide, by decide, by decide⟩

/-- C5: the claim states that a ≥12-byte header fails to decode exactly when
bit 6 of byte 3 (the reserved/Z bit, directly below recursion-available) is
set.  The code instead tests bit 4 (the checking-disabled position): byte 3
= `0x40` (reserved bit set) decodes successfully, while byte 3 = `0x10`
(reserved bit clear) is rejected with the "Z bit must be 0" error. -/
theorem claim_c5_reserved_bit_check_tests_wrong_bit :
    ((64 >>> 6) &&& 1 = 1 ∧
      (parse_dns_header [0, 0, 0, 64, 0, 0, 0, 0, 0, 0, 0, 0]).isOk = true) ∧
    ((16 >>> 6) &&& 1 = 0 ∧
      parse_dns_header [0, 0, 0, 16, 0, 0, 0, 0, 0, 0, 0, 0] =
        .err .zBit) := by
  decide

/-- C8: answer record-data decoding fails whenever the declared length
exceeds the remaining buffer, whenever the kind is A and the declared length
is not 4, and whenever the kind is AAAA and the declared length is not 16;
with kind A and length 4 (resp. AAAA and 16) and enough bytes remaining it
succeeds and consumes exactly 4 (resp. 16) bytes. -/
theorem claim_c8_rdata_length_validation :
    ∀ (rdlength : Nat) (buf : List Nat),
      (∀ rtype, buf.length < rdlength →
        parse_rdata rtype rdlength buf = .err .rdataTooShort) ∧
      (rdlength ≠ 4 → ∃ e, parse_rdata .A rdlength buf = .err e) ∧
      (rdlength ≠ 16 → ∃ e, parse_rdata .AAAA rdlength buf = .err e) ∧
      (4 ≤ buf.length →
        ∃ r, parse_rdata .A 4 buf = .ok (r, buf.drop 4)) ∧
      (16 ≤ buf.length →
        parse_rdata .AAAA 16 buf = .ok (.AAAA (buf.take 16), buf.drop 16)) := by
  intro rdlength buf
  refine ⟨?_, ?_, ?_, ?_, ?_⟩
  · intro rtype h
    simp [parse_rdata, h]
  · intro hne
    by_cases hlen : buf.length < rdlength
    · exact ⟨.rdataTooShort, by simp [parse_rdata, hlen]⟩
    · exact ⟨.aLen, by simp [parse_rdata, hlen, hne]⟩
  · intro hne
    by_cases hlen : buf.length < rdlength
    · exact ⟨.rdataTooShort, by simp [parse_rdata, hlen]⟩
    · exact ⟨.aaaaLen, by simp [parse_rdata, hlen, hne]⟩
  · intro h4
    rcases buf with _ | ⟨a, _ | ⟨b, _ | ⟨c, _ | ⟨d, r⟩⟩⟩⟩ <;> simp at h4
    exact ⟨.A a b c d, by simp [parse_rdata, getU8, PRes.bind]⟩
  · intro h16
    simp [parse_rdata, Nat.not_lt.mpr h16]

/-- Witness for C8 at concrete inputs. -/
theorem claim_c8_rdata_length_validation_witness :
    parse_rdata .CNAME 3 [0, 0] = .err .rdataTooShort ∧
    (∃ e, parse_rdata .A 5 [0, 0, 0, 0, 0] = .err e) ∧
    (∃ e, parse_rdata .AAAA 4 [0, 0, 0, 0] = .err e) ∧
    (∃ r, parse_rdata .A 4 [9, 8, 7, 6, 5] = .ok (r, [5])) ∧
    parse_rdata .AAAA 16
        [0, 1, 2, 3, 4, 5, 6, 7, 8, 9, 10, 11, 12, 13, 14, 15, 99] =
      .ok (.AAAA [0, 1, 2, 3, 4, 5, 6, 7, 8, 9, 10, 11, 12, 13, 14, 15],
           [99]) := by
  refine ⟨(claim_c8_rdata_length_validation 3 [0, 0]).1 .CNAME (by decide),
          (claim_c8_rdata_length_validation 5 [0, 0, 0, 0, 0]).2.1
            (by decide),
          (claim_c8_rdata_length_validation 4 [0, 0, 0, 0]).2.2.1
            (by decide),
          ?_, ?_⟩
  · obtain ⟨r, hr⟩ :=
      (claim_c8_rdata_length_validation 4 [9, 8, 7, 6, 5]).2.2.2.1
        (by decide)
    exact ⟨r, by simpa using hr⟩
  · have h :=
      (claim_c8_rdata_length_validation 16
        [0, 1, 2, 3, 4, 5, 6, 7, 8, 9, 10, 11, 12, 13, 14, 15, 99]).2.2.2.2
        (by decide)
    simpa using h

/-- C2: the reply decision table of `construct_reply`. -/
theorem claim_c2_construct_reply_decision :
    ∀ (config : ZoneConfig) (query : DnsPacket),
      (query.header.response = true → construct_reply config query = none) ∧
      (query.header.response = false →
        ∃ r, construct_reply config query = some r ∧
          (query.questions.length ≠ 1 →
            r.header.rcode = .NotImp ∧ r.answers = []) ∧
          (∀ q, query.questions = [q] →
            (q.qclass ≠ .IN → r.header.rcode = .Refused ∧ r.answers = []) ∧
            (q.qclass = .IN →
              ((find_record config q.qname q.qtype).1 = [] →
                r.header.rcode = .NXDomain ∧ r.answers = []) ∧
              ((find_record config q.qname q.qtype).1 ≠ [] →
                r.header.rcode = .NoError ∧
                r.answers = (find_record config q.qname q.qtype).1.map
                  (fun record =>
                    { name := q.qname, rtype := q.qtype, rclass := q.qclass,
                      ttl := (find_record config q.qname q.qtype).2,
                      rdata := record.rdata }))))) := by
  intro config query
  constructor
  · intro h
    simp [construct_reply, h]
  · intro h
    refine ⟨{ header :=
                { transaction_id := query.header.transaction_id
                  response := true
                  opcode := query.header.opcode
                  authoritative_answer := false
                  truncation := false
                  recursion_desired := query.header.recursion_desired
                  recursion_available := false
                  reserved := false
                  authenticated_data := false
                  checking_disabled := false
                  rcode := (reply_pair config query).2
                  qd_count := min query.questions.length 65535
                  an_count := min (reply_pair config query).1.length 65535
                  ns_count := 0
                  ar_count := 0 }
              questions := query.questions
              answers := (reply_pair config query).1
              unparsed := [] },
            by simp [construct_reply, h], ?_, ?_⟩
    · intro hlen
      rcases hqs : query.questions with _ | ⟨q, _ | ⟨q2, qs⟩⟩
      · simp [reply_pair, hqs]
      · simp [hqs] at hlen
      · simp [reply_pair, hqs]
    · intro q hqs
      constructor
      · intro hcls
        simp [reply_pair, hqs, hcls]
      · intro hcls
        constructor
        · intro hemp
          simp [reply_pair, hqs, hcls, hemp]
        · intro hne
          simp [reply_pair, hqs, hcls, hne]

/-- Concrete artifacts for witnesses: the empty store, a minimal query with
the response bit clear (`wq0`), the same with the response bit set (`wq1`),
and the reply the code builds for `wq0`. -/
def wcfg0 : ZoneConfig := ⟨[]⟩

def wh0 : DnsHeader :=
  { transaction_id := 7, response := false, opcode := .QUERY,
    authoritative_answer := false, truncation := false,
    recursion_desired := true, recursion_available := false,
    reserved := false, authenticated_data := false,
    checking_disabled := false, rcode := .NoError,
    qd_count := 0, an_count := 0, ns_count := 0, ar_count := 0 }

def wq0 : DnsPacket := ⟨wh0, [], [], []⟩

def wq1 : DnsPacket := ⟨{ wh0 with response := true }, [], [], []⟩

def wr0 : DnsPacket :=
  ⟨{ transaction_id := 7, response := true, opcode := .QUERY,
     authoritative_answer := false, truncation := false,
     recursion_desired := true, recursion_available := false,
     reserved := false, authenticated_data := false,
     checking_disabled := false, rcode := .NotImp,
     qd_count := 0, an_count := 0, ns_count := 0, ar_count := 0 },
   [], [], []⟩

/-- Witness for C2: a query marked as a response gets no reply, and the
zero-question query `wq0` gets a NotImplemented reply with no answers. -/
theorem claim_c2_construct_reply_decision_witness :
    construct_reply wcfg0 wq1 = none ∧
    ∃ r, construct_reply wcfg0 wq0 = some r ∧
      r.header.rcode = .NotImp ∧ r.answers = [] := by
  refine ⟨(claim_c2_construct_reply_decision wcfg0 wq1).1 (by decide), ?_⟩
  obtain ⟨r, hr, hlen, -⟩ :=
    (claim_c2_construct_reply_decision wcfg0 wq0).2 (by decide)
  exact ⟨r, hr, hlen (by decide)⟩

/-- C6: shape of every reply header `construct_reply` produces. -/
theorem claim_c6_reply_header_shape :
    ∀ (config : ZoneConfig) (query r : DnsPacket),
      construct_reply config query = some r →
        r.header.transaction_id = query.header.transaction_id ∧
        r.header.response = true ∧
        r.header.opcode = query.header.opcode ∧
        r.header.authoritative_answer = false ∧
        r.header.truncation = false ∧
        r.header.recursion_desired = query.header.recursion_desired ∧
        r.header.recursion_available = false ∧
        r.header.reserved = false ∧
        r.header.authenticated_data = false ∧
        r.header.checking_disabled = false ∧
        r.header.qd_count = min r.questions.length 65535 ∧
        r.header.an_count = min r.answers.length 65535 ∧
        r.header.ns_count = 0 ∧
        r.header.ar_count = 0 ∧
        r.questions = query.questions ∧
        r.unparsed = [] := by
  intro config query r hsome
  by_cases h : query.header.response
  · simp [construct_reply, h] at hsome
  · rw [construct_reply, if_neg h] at hsome
    obtain rfl := (Option.some.injEq _ _).mp hsome.symm
    simp

/-- Witness for C6 at the concrete query `wq0` and its reply `wr0`. -/
theorem claim_c6_reply_header_shape_witness :
    wr0.header.response = true ∧ wr0.header.transaction_id = 7 ∧
    wr0.questions = wq0.questions ∧ wr0.unparsed = [] := by
  have h := claim_c6_reply_header_shape wcfg0 wq0 wr0 (by decide)
  exact ⟨h.2.1, h.1, h.2.2.2.2.2.2.2.2.2.2.2.2.2.2.1, h.2.2.2.2.2.2.2.2.2.2.2.2.2.2.2⟩

/-! ### Lemmas about `find_record` -/

lemma find_record_step_fst (zn : List Nat) (zone : Zone) (domain : List Nat)
    (rt : QType) (acc : List Record × Nat) (record : Record) :
    (find_record_step zn zone domain rt acc record).1 =
      acc.1 ++ (if combined_name record.name zn = domain ∧
                  record.record_type = rt then [record] else []) := by
  unfold find_record_step
  split_ifs with h1 h2 h3 <;> simp_all

lemma find_record_records_fst (zn : List Nat) (zone : Zone)
    (domain : List Nat) (rt : QType) (records : List Record) :
    ∀ acc : List Record × Nat,
      (records.foldl (find_record_step zn zone domain rt) acc).1 =
        acc.1 ++ records.filter (fun r =>
          decide (combined_name r.name zn = domain) &&
          decide (r.record_type = rt)) := by
  induction records with
  | nil => intro acc; simp
  | cons r rest ih =>
    intro acc
    rw [List.foldl_cons, List.filter_cons, ih]
    rw [find_record_step_fst]
    by_cases h1 : combined_name r.name zn = domain <;>
      by_cases h2 : r.record_type = rt <;> simp [h1, h2]

lemma find_record_fst (config : ZoneConfig) (domain : List Nat)
    (rt : QType) :
    ∀ acc : List Record × Nat,
      (config.zones.foldl
        (fun acc (z : List Nat × Zone) =>
          if ¬ (z.1.isSuffixOf domain) then acc
          else z.2.records.foldl (find_record_step z.1 z.2 domain rt) acc)
        acc).1 =
      acc.1 ++ config.zones.flatMap (fun z =>
        z.2.records.filter (fun r =>
          z.1.isSuffixOf domain &&
          decide (combined_name r.name z.1 = domain) &&
          decide (r.record_type = rt))) := by
  obtain ⟨zones⟩ := config
  induction zones with
  | nil => intro acc; simp
  | cons z rest ih =>
    intro acc
    rw [List.foldl_cons, List.flatMap_cons, ih]
    by_cases hs : z.1.isSuffixOf domain
    · rw [if_neg (by simp [hs]), find_record_records_fst]
      simp [hs, List.append_assoc]
    · rw [if_pos (by simp [hs])]
      have hnil : z.2.records.filter (fun r =>
          z.1.isSuffixOf domain &&
          decide (combined_name r.name z.1 = domain) &&
          decide (r.record_type = rt)) = [] := by
        apply List.filter_eq_nil_iff.mpr
        intro r _
        simp [hs]
      rw [hnil]
      simp

/-- Store for the subdomain example: zone `example.org` (TTL 7) holding one
record with relative name `subdomain`, kind A, data `172.66.157.88`. -/
def wsub : List Nat := [115, 117, 98, 100, 111, 109, 97, 105, 110]

def wexOrg : List Nat := [101, 120, 97, 109, 112, 108, 101, 46, 111, 114, 103]

def wother : List Nat := [111, 116, 104, 101, 114]

def wsubRec : Record := ⟨wsub, .A, .A 172 66 157 88⟩

def wsubCfg : ZoneConfig := ⟨[(wexOrg, ⟨some 7, [wsubRec]⟩)]⟩

/-- C3: `find_record` returns exactly the configured records whose zone name
is a byte-wise suffix of the queried name, whose absolute name (zone name
when the relative name is empty, else relative name + `.` + zone name)
equals the queried name, and whose kind equals the queried kind; in
particular the record named `subdomain` in zone `example.org` is returned
for `subdomain.example.org` but not for `example.org` or
`other.subdomain.example.org`. -/
theorem claim_c3_find_record_matching :
    (∀ (config : ZoneConfig) (domain : List Nat) (rt : QType),
      (find_record config domain rt).1 =
        config.zones.flatMap (fun z =>
          z.2.records.filter (fun r =>
            z.1.isSuffixOf domain &&
            decide (combined_name r.name z.1 = domain) &&
            decide (r.record_type = rt)))) ∧
    find_record wsubCfg (wsub ++ 46 :: wexOrg) .A = ([wsubRec], 7) ∧
    find_record wsubCfg wexOrg .A = ([], 5) ∧
    find_record wsubCfg (wother ++ 46 :: wsub ++ 46 :: wexOrg) .A =
      ([], 5) := by
  refine ⟨?_, by decide, by decide, by decide⟩
  intro config domain rt
  have h := find_record_fst config domain rt ([], 5)
  simpa [find_record] using h

/-! ### The effective TTL of `find_record` -/

/-- Candidates a single zone contributes for a queried name: one entry per
record whose absolute name equals the name, carrying the zone's effective
TTL override (default 5) and the record's kind, in record order. -/
def zone_candidates (domain : List Nat) (z : List Nat × Zone) :
    List (Nat × QType) :=
  (z.2.records.filter
    (fun r => decide (combined_name r.name z.1 = domain))).map
    (fun r => (z.2.ttl.getD 5, r.record_type))

/-- All candidates for a queried name, in store iteration order. -/
def candidates (config : ZoneConfig) (domain : List Nat) :
    List (Nat × QType) :=
  config.zones.flatMap (zone_candidates domain)

/-- TTL the code effectively returns: the zone TTL attached to the first
candidate of the queried kind; otherwise the zone TTL attached to the last
candidate of any kind; otherwise the default 5. -/
def effective_ttl (config : ZoneConfig) (domain : List Nat) (rt : QType) :
    Nat :=
  match (candidates config domain).find? (fun c => decide (c.2 = rt)) with
  | some c => c.1
  | none =>
    match (candidates config domain).getLast? with
    | some c => c.1
    | none => 5

/-- Abstract view of `find_record`'s accumulator for the TTL argument:
whether any record has been pushed, and the current TTL. -/
def ttl_view (acc : List Record × Nat) : Bool × Nat :=
  (!acc.1.isEmpty, acc.2)

/-- Action of one candidate on the abstract accumulator. -/
def ttl_fold (rt : QType) (acc : Bool × Nat) (c : Nat × QType) :
    Bool × Nat :=
  (acc.1 || decide (c.2 = rt), if acc.1 then acc.2 else c.1)

lemma ttl_view_step (zn : List Nat) (zone : Zone) (domain : List Nat)
    (rt : QType) (acc : List Record × Nat) (r : Record) :
    ttl_view (find_record_step zn zone domain rt acc r) =
      if combined_name r.name zn = domain then
        ttl_fold rt (ttl_view acc) (zone.ttl.getD 5, r.record_type)
      else ttl_view acc := by
  obtain ⟨results, ttl⟩ := acc
  unfold find_record_step ttl_fold ttl_view
  by_cases h1 : combined_name r.name zn = domain <;>
    by_cases h2 : r.record_type = rt <;>
    by_cases h3 : results = [] <;>
    simp_all

lemma ttl_view_records (zn : List Nat) (zone : Zone) (domain : List Nat)
    (rt : QType) (records : List Record) :
    ∀ acc : List Record × Nat,
      ttl_view (records.foldl (find_record_step zn zone domain rt) acc) =
        ((records.filter
            (fun r => decide (combined_name r.name zn = domain))).map
          (fun r => (zone.ttl.getD 5, r.record_type))).foldl
          (ttl_fold rt) (ttl_view acc) := by
  induction records with
  | nil => intro acc; simp
  | cons r rest ih =>
    intro acc
    rw [List.foldl_cons, List.filter_cons, ih, ttl_view_step]
    by_cases h : combined_name r.name zn = domain <;> simp [h]

lemma suffix_of_combined (rn zn domain : List Nat)
    (h : combined_name rn zn = domain) : zn.isSuffixOf domain = true := by
  rw [List.isSuffixOf_iff_suffix]
  unfold combined_name at h
  by_cases hrn : rn = []
  · rw [if_pos hrn] at h
    exact h ▸ List.suffix_refl zn
  · rw [if_neg hrn] at h
    exact h ▸ (List.suffix_cons 46 zn).trans (List.suffix_append rn (46 :: zn))

lemma ttl_view_zones (domain : List Nat) (rt : QType)
    (zones : List (List Nat × Zone)) :
    ∀ acc : List Record × Nat,
      ttl_view (zones.foldl
        (fun acc (z : List Nat × Zone) =>
          if ¬ (z.1.isSuffixOf domain) then acc
          else z.2.records.foldl (find_record_step z.1 z.2 domain rt) acc)
        acc) =
      (zones.flatMap (zone_candidates domain)).foldl
        (ttl_fold rt) (ttl_view acc) := by
  induction zones with
  | nil => intro acc; simp
  | cons z rest ih =>
    intro acc
    rw [List.foldl_cons, List.flatMap_cons, List.foldl_append, ih]
    by_cases hs : z.1.isSuffixOf domain
    · rw [if_neg (by simp [hs]), ttl_view_records]
      rfl
    · rw [if_pos (by simp [hs])]
      have hnil : zone_candidates domain z = [] := by
        unfold zone_candidates
        rw [List.filter_eq_nil_iff.mpr]
        · rfl
        · intro r _ hc
          exact hs (suffix_of_combined r.name z.1 domain (by simpa using hc))
      rw [hnil]
      rfl

lemma ttl_fold_from_found (rt : QType) (cands : List (Nat × QType)) :
    ∀ t : Nat, cands.foldl (ttl_fold rt) (true, t) = (true, t) := by
  induction cands with
  | nil => intro t; rfl
  | cons c rest ih => intro t; rw [List.foldl_cons]; exact ih t

lemma ttl_fold_spec (rt : QType) (cands : List (Nat × QType)) :
    ∀ t : Nat,
      (cands.foldl (ttl_fold rt) (false, t)).2 =
        match cands.find? (fun c => decide (c.2 = rt)) with
        | some c => c.1
        | none =>
          match cands.getLast? with
          | some c => c.1
          | none => t := by
  induction cands with
  | nil => intro t; rfl
  | cons c rest ih =>
    intro t
    rw [List.foldl_cons]
    by_cases h : c.2 = rt
    · have hstep : ttl_fold rt (false, t) c = (true, c.1) := by
        simp [ttl_fold, h]
      rw [hstep, ttl_fold_from_found, List.find?_cons]
      simp [h]
    · have hstep : ttl_fold rt (false, t) c = (false, c.1) := by
        simp [ttl_fold, h]
      rw [hstep, ih, List.find?_cons]
      rcases rest with _ | ⟨c2, rest2⟩
      · simp [h]
      · obtain ⟨x, hx⟩ := Option.isSome_iff_exists.mp
          (List.getLast?_isSome.mpr (List.cons_ne_nil c2 rest2))
        rw [List.getLast?_cons_cons, hx]
        simp [h]

/-- Store refuting C4 for the queried name `b.a`: the first zone in
iteration order, `a` (TTL 11), contributes a candidate (`b` in `a`, kind
NS); the second zone, `b.a` (TTL 22), holds the kind-matching A record. -/
def wttlCfg : ZoneConfig :=
  ⟨[([97], ⟨some 11, [⟨[98], .NS, .NS [97]⟩]⟩),
    ([98, 46, 97], ⟨some 22, [⟨[], .A, .A 1 2 3 4⟩]⟩)]⟩

/-- Counterexample to C4: the first candidate-producing zone for `b.a` is
zone `a` with TTL override 11, yet `find_record` returns TTL 22 (the zone
of the kind-matching record), because the code overwrites the TTL at every
candidate until a kind-matching record is pushed. -/
theorem claim_c4_counterexample :
    wttlCfg.zones.find? (fun z =>
        z.2.records.any
          (fun r => decide (combined_name r.name z.1 = [98, 46, 97]))) =
      some ([97], ⟨some 11, [⟨[98], .NS, .NS [97]⟩]⟩) ∧
    (find_record wttlCfg [98, 46, 97] .A).2 = 22 ∧
    (find_record wttlCfg [98, 46, 97] .A).2 ≠ 11 := by
  decide

/-- C4 (amended): the effective TTL returned by `find_record` is the TTL
override (default 5 when absent) of the zone of the first candidate whose
kind equals the queried kind; when no candidate matches in kind, that of
the zone of the last candidate in iteration order; and the fixed default 5
when no zone produces any candidate. -/
theorem claim_c4_effective_ttl :
    ∀ (config : ZoneConfig) (domain : List Nat) (rt : QType),
      (find_record config domain rt).2 = effective_ttl config domain rt := by
  intro config domain rt
  have h := ttl_view_zones domain rt config.zones ([], 5)
  have h2 : (find_record config domain rt).2 =
      (ttl_view (config.zones.foldl
        (fun acc (z : List Nat × Zone) =>
          if ¬ (z.1.isSuffixOf domain) then acc
          else z.2.records.foldl (find_record_step z.1 z.2 domain rt) acc)
        ([], 5))).2 := rfl
  rw [h2, h]
  have hv : ttl_view ([], 5) = (false, 5) := rfl
  rw [hv, ttl_fold_spec]
  rfl

/-! ### Name-compression rejection -/

/-- A label the name parser accepts and steps over: non-empty, length below
64 (so its length byte has the two top bits clear), valid UTF-8. -/
def good_label (c : List Nat) : Bool :=
  decide (0 < c.length) && decide (c.length < 64) && validUtf8 c

/-- Wire encoding of a sequence of labels (without the terminator). -/
def encode_chunks : List (List Nat) → List Nat
  | [] => []
  | c :: cs => c.length :: (c ++ encode_chunks cs)

lemma land_192_of_lt_64 : ∀ n < 64, n &&& 192 = 0 := by decide

lemma parse_labels_reaches_compression (b : Nat) (hb : b &&& 192 ≠ 0) :
    ∀ (pre : List (List Nat)) (rest : List Nat) (fuel : Nat),
      (∀ c ∈ pre, good_label c = true) →
      (encode_chunks pre ++ b :: rest).length ≤ fuel →
      parse_labels fuel (encode_chunks pre ++ b :: rest) =
        .err .nameCompression := by
  intro pre
  induction pre with
  | nil =>
    intro rest fuel _ hfuel
    rcases fuel with _ | f
    · simp at hfuel
    · show parse_labels (f + 1) (b :: rest) = .err .nameCompression
      unfold parse_labels
      rw [if_pos hb]
  | cons c cs ih =>
    intro rest fuel hgood hfuel
    have hc := hgood c (by simp)
    have hc1 : 0 < c.length := by
      have := (Bool.and_eq_true _ _).mp ((Bool.and_eq_true _ _).mp hc).1
      simpa using this.1
    have hc2 : c.length < 64 := by
      have := (Bool.and_eq_true _ _).mp ((Bool.and_eq_true _ _).mp hc).1
      simpa using this.2
    have hc3 : validUtf8 c = true :=
      ((Bool.and_eq_true _ _).mp hc).2
    have hshape : encode_chunks (c :: cs) ++ b :: rest =
        c.length :: (c ++ (encode_chunks cs ++ b :: rest)) := by
      simp [encode_chunks]
    rw [hshape] at hfuel ⊢
    rcases fuel with _ | f
    · simp at hfuel
    · unfold parse_labels
      rw [if_neg (by simp [land_192_of_lt_64 c.length hc2]),
          if_neg (by omega),
          if_neg (by simp)]
      rw [if_pos (by rw [List.take_left]; exact hc3)]
      rw [List.drop_left]
      rw [ih rest f (fun x hx => hgood x (by simp [hx]))
        (by simp at hfuel ⊢; omega)]

lemma parse_list_err_head {α : Type} (pf : List Nat → PRes (α × List Nat))
    (n : Nat) (buf : List Nat) (e : PErr) (h : pf buf = .err e) :
    parse_list pf (n + 1) buf = .err e := by
  unfold parse_list
  rw [h]
  rfl

lemma parse_list_err_tail {α : Type} (pf : List Nat → PRes (α × List Nat))
    (n : Nat) (buf : List Nat) (x : α) (rest : List Nat) (e : PErr)
    (h1 : pf buf = .ok (x, rest)) (h2 : parse_list pf n rest = .err e) :
    parse_list pf (n + 1) buf = .err e := by
  unfold parse_list
  rw [h1]
  show (parse_list pf n rest).bind _ = _
  rw [h2]
  rfl

/-- C7: a label length byte with either of its two top bits set is a hard
parse failure wherever a name is decoded, and the failure propagates so
that parsing of the whole message fails: (1) the name parser, after
stepping over any sequence of accepted labels, rejects such a byte with the
compression error; (2)-(4) question, answer and NS/CNAME record-data
parsing fail whenever their embedded name parse fails; (5)-(8) the
question/answer parsing loops fail whenever any element parse fails; and
(9)-(10) `parse_dns_query` fails whenever either loop fails. -/
theorem claim_c7_compression_is_hard_failure :
    (∀ (b : Nat) (pre : List (List Nat)) (rest : List Nat),
      b &&& 192 ≠ 0 → (∀ c ∈ pre, good_label c = true) →
      parse_dns_name (encode_chunks pre ++ b :: rest) =
        .err .nameCompression) ∧
    (∀ (buf : List Nat) (e : PErr), parse_dns_name buf = .err e →
      parse_dns_question buf = .err e) ∧
    (∀ (buf : List Nat) (e : PErr), parse_dns_name buf = .err e →
      parse_dns_answer buf = .err e) ∧
    (∀ (rdlength : Nat) (buf : List Nat) (e : PErr),
      ¬ buf.length < rdlength → parse_dns_name buf = .err e →
      parse_rdata .NS rdlength buf = .err e ∧
      parse_rdata .CNAME rdlength buf = .err e) ∧
    (∀ (n : Nat) (buf : List Nat) (e : PErr),
      parse_dns_question buf = .err e →
      parse_list parse_dns_question (n + 1) buf = .err e) ∧
    (∀ (n : Nat) (buf : List Nat) (q : DnsQuestion) (rest : List Nat)
        (e : PErr),
      parse_dns_question buf = .ok (q, rest) →
      parse_list parse_dns_question n rest = .err e →
      parse_list parse_dns_question (n + 1) buf = .err e) ∧
    (∀ (n : Nat) (buf : List Nat) (e : PErr),
      parse_dns_answer buf = .err e →
      parse_list parse_dns_answer (n + 1) buf = .err e) ∧
    (∀ (n : Nat) (buf : List Nat) (a : DnsAnswer) (rest : List Nat)
        (e : PErr),
      parse_dns_answer buf = .ok (a, rest) →
      parse_list parse_dns_answer n rest = .err e →
      parse_list parse_dns_answer (n + 1) buf = .err e) ∧
    (∀ (b : List Nat) (hdr : DnsHeader) (rest : List Nat) (e : PErr),
      parse_dns_header b = .ok (hdr, rest) →
      parse_list parse_dns_question hdr.qd_count rest = .err e →
      parse_dns_query b = .err e) ∧
    (∀ (b : List Nat) (hdr : DnsHeader) (rest : List Nat)
        (qs : List DnsQuestion) (rest2 : List Nat) (e : PErr),
      parse_dns_header b = .ok (hdr, rest) →
      parse_list parse_dns_question hdr.qd_count rest = .ok (qs, rest2) →
      parse_list parse_dns_answer hdr.an_count rest2 = .err e →
      parse_dns_query b = .err e) := by
  refine ⟨?_, ?_, ?_, ?_, ?_, ?_, ?_, ?_, ?_, ?_⟩
  · intro b pre rest hb hgood
    unfold parse_dns_name
    rw [parse_labels_reaches_compression b hb pre rest _ hgood le_rfl]
    rfl
  · intro buf e h
    unfold parse_dns_question
    rw [h]
    rfl
  · intro buf e h
    unfold parse_dns_answer
    rw [h]
    rfl
  · intro rdlength buf e hlen h
    constructor <;>
      (unfold parse_rdata; rw [if_neg hlen]; show (parse_dns_name buf).bind _ = _;
       rw [h]; rfl)
  · intro n buf e h
    exact parse_list_err_head _ n buf e h
  · intro n buf q rest e h1 h2
    exact parse_list_err_tail _ n buf q rest e h1 h2
  · intro n buf e h
    exact parse_list_err_head _ n buf e h
  · intro n buf a rest e h1 h2
    exact parse_list_err_tail _ n buf a rest e h1 h2
  · intro b hdr rest e h1 h2
    unfold parse_dns_query
    rw [h1]
    show (parse_list parse_dns_question hdr.qd_count rest).bind _ = _
    rw [h2]
    rfl
  · intro b hdr rest qs rest2 e h1 h2 h3
    unfold parse_dns_query
    rw [h1]
    show (parse_list parse_dns_question hdr.qd_count rest).bind _ = _
    rw [h2]
    show (parse_list parse_dns_answer hdr.an_count rest2).bind _ = _
    rw [h3]
    rfl

/-- Witness for C7: after the accepted label `a`, the byte `0xc0` aborts the
name parse with the compression error; a whole message whose single
question name hits `0xc0` fails the same way. -/
theorem claim_c7_compression_is_hard_failure_witness :
    parse_dns_name [1, 97, 192, 0] = .err .nameCompression ∧
    parse_dns_query
        [0, 0, 0, 0, 0, 1, 0, 0, 0, 0, 0, 0, 1, 97, 192, 0] =
      .err .nameCompression := by
  constructor
  · exact claim_c7_compression_is_hard_failure.1 192 [[97]] [0]
      (by decide) (by decide)
  · have hname : parse_dns_name [1, 97, 192, 0] = .err .nameCompression :=
      claim_c7_compression_is_hard_failure.1 192 [[97]] [0]
        (by decide) (by decide)
    have hq : parse_dns_question [1, 97, 192, 0] = .err .nameCompression :=
      claim_c7_compression_is_hard_failure.2.1 _ _ hname
    have hlist : parse_list parse_dns_question 1 [1, 97, 192, 0] =
        .err .nameCompression :=
      claim_c7_compression_is_hard_failure.2.2.2.2.1 0 _ _ hq
    exact claim_c7_compression_is_hard_failure.2.2.2.2.2.2.2.2.1
      _
      { transaction_id := 0, response := false, opcode := .QUERY,
        authoritative_answer := false, truncation := false,
        recursion_desired := false, recursion_available := false,
        reserved := false, authenticated_data := false,
        checking_disabled := false, rcode := .NoError,
        qd_count := 1, an_count := 0, ns_count := 0, ar_count := 0 }
      [1, 97, 192, 0] _ (by decide) hlist

/-! ### No decoding path panics -/

lemma PRes.bind_no_panic {α β : Type} (r : PRes α) (f : α → PRes β)
    (h1 : r ≠ .panic) (h2 : ∀ a, f a ≠ .panic) : r.bind f ≠ .panic := by
  cases r with
  | ok a => exact h2 a
  | err e => simp [PRes.bind]
  | panic => exact absurd rfl h1

lemma parse_labels_no_panic :
    ∀ (fuel : Nat) (buf : List Nat), buf.length ≤ fuel →
      parse_labels fuel buf ≠ .panic := by
  intro fuel
  induction fuel with
  | zero =>
    intro buf h
    obtain rfl := List.length_eq_zero.mp (Nat.le_zero.mp h)
    simp [parse_labels]
  | succ f ih =>
    intro buf h
    rcases buf with _ | ⟨len, rest⟩
    · simp [parse_labels]
    · simp only [parse_labels]
      split_ifs with h1 h2 h3 h4
      · simp
      · simp
      · simp
      · have hrec := ih (rest.drop len)
          (by simp only [List.length_drop]; simp at h; omega)
        cases hr : parse_labels f (rest.drop len) with
        | ok p => obtain ⟨labels, r⟩ := p; simp
        | err e => simp
        | panic => exact absurd hr hrec
      · simp

lemma parse_dns_name_no_panic (buf : List Nat) :
    parse_dns_name buf ≠ .panic := by
  unfold parse_dns_name
  exact PRes.bind_no_panic _ _ (parse_labels_no_panic buf.length buf le_rfl)
    (fun a => by obtain ⟨labels, r⟩ := a; simp)

lemma parse_dns_header_no_panic (buf : List Nat) :
    parse_dns_header buf ≠ .panic := by
  unfold parse_dns_header
  by_cases h : buf.length < 12
  · simp [h]
  · rcases buf with _ | ⟨b0, _ | ⟨b1, _ | ⟨b2, _ | ⟨b3, _ | ⟨b4, _ | ⟨b5,
      _ | ⟨b6, _ | ⟨b7, _ | ⟨b8, _ | ⟨b9, _ | ⟨b10, _ | ⟨b11,
      rest⟩⟩⟩⟩⟩⟩⟩⟩⟩⟩⟩⟩ <;> first
      | (exfalso; simp only [List.length_cons, List.length_nil] at h; omega)
      | (rw [if_neg (by simp only [List.length_cons]; omega)]
         simp only [getU16, getU8, PRes.bind]
         split_ifs <;> simp)

lemma parse_dns_question_no_panic (buf : List Nat) :
    parse_dns_question buf ≠ .panic := by
  unfold parse_dns_question
  refine PRes.bind_no_panic _ _ (parse_dns_name_no_panic buf) ?_
  rintro ⟨qname, rest⟩
  by_cases h : rest.length < 4
  · simp [h]
  · rcases rest with _ | ⟨r0, _ | ⟨r1, _ | ⟨r2, _ | ⟨r3, r⟩⟩⟩⟩ <;> first
      | (exfalso; simp only [List.length_cons, List.length_nil] at h; omega)
      | (simp only [getU16, PRes.bind]
         split_ifs
         all_goals simp)

lemma parse_rdata_no_panic (rtype : QType) (rdlength : Nat)
    (buf : List Nat) : parse_rdata rtype rdlength buf ≠ .panic := by
  unfold parse_rdata
  by_cases h : buf.length < rdlength
  · simp [h]
  · rw [if_neg h]
    cases rtype with
    | A =>
      by_cases h4 : rdlength = 4
      · subst h4
        rw [if_neg (by simp)]
        rcases buf with _ | ⟨b0, _ | ⟨b1, _ | ⟨b2, _ | ⟨b3, r⟩⟩⟩⟩ <;> first
          | (exfalso; simp only [List.length_cons, List.length_nil] at h; omega)
          | simp [getU8, PRes.bind]
      · simp [h4]
    | AAAA =>
      by_cases h16 : rdlength = 16
      · subst h16
        simp
      · simp [h16]
    | NS =>
      exact PRes.bind_no_panic _ _ (parse_dns_name_no_panic buf)
        (fun a => by obtain ⟨n, r⟩ := a; simp)
    | CNAME =>
      exact PRes.bind_no_panic _ _ (parse_dns_name_no_panic buf)
        (fun a => by obtain ⟨n, r⟩ := a; simp)
    | Other n =>
      simp

lemma parse_dns_answer_no_panic (buf : List Nat) :
    parse_dns_answer buf ≠ .panic := by
  unfold parse_dns_answer
  refine PRes.bind_no_panic _ _ (parse_dns_name_no_panic buf) ?_
  rintro ⟨name, rest⟩
  by_cases h : rest.length < 10
  · simp [h]
  · rcases rest with _ | ⟨r0, _ | ⟨r1, _ | ⟨r2, _ | ⟨r3, _ | ⟨r4, _ | ⟨r5,
      _ | ⟨r6, _ | ⟨r7, _ | ⟨r8, _ | ⟨r9, r⟩⟩⟩⟩⟩⟩⟩⟩⟩⟩ <;> first
      | (exfalso; simp only [List.length_cons, List.length_nil] at h; omega)
      | (simp only [getU16, getU32, PRes.bind]
         rw [if_neg (by simp only [List.length_cons]; omega)]
         exact PRes.bind_no_panic _ _ (parse_rdata_no_panic _ _ _)
           (fun a => by obtain ⟨d, r5x⟩ := a; simp))

lemma parse_list_no_panic {α : Type} (pf : List Nat → PRes (α × List Nat))
    (hpf : ∀ b, pf b ≠ .panic) :
    ∀ (n : Nat) (buf : List Nat), parse_list pf n buf ≠ .panic := by
  intro n
  induction n with
  | zero => intro buf; simp [parse_list]
  | succ m ih =>
    intro buf
    unfold parse_list
    refine PRes.bind_no_panic _ _ (hpf buf) ?_
    rintro ⟨x, rest⟩
    refine PRes.bind_no_panic _ _ (ih rest) ?_
    rintro ⟨xs, r⟩
    simp

/-- C10: `parse_dns_query` is total and panic-free — on every byte buffer,
of any length and contents, every unchecked multi-byte read is guarded by a
preceding remaining-length check, so decoding always returns either a
packet or a parse error (never the `.panic` that models a Rust
out-of-bounds `bytes::Buf` read). -/
theorem claim_c10_parse_total_no_panic :
    ∀ buf : List Nat,
      (∃ p, parse_dns_query buf = .ok p) ∨
      (∃ e, parse_dns_query buf = .err e) := by
  intro buf
  have hnp : parse_dns_query buf ≠ .panic := by
    unfold parse_dns_query
    refine PRes.bind_no_panic _ _ (parse_dns_header_no_panic buf) ?_
    rintro ⟨hdr, rest⟩
    refine PRes.bind_no_panic _ _
      (parse_list_no_panic _ parse_dns_question_no_panic hdr.qd_count rest) ?_
    rintro ⟨qs, rest2⟩
    refine PRes.bind_no_panic _ _
      (parse_list_no_panic _ parse_dns_answer_no_panic hdr.an_count rest2) ?_
    rintro ⟨as, rest3⟩
    simp
  cases h : parse_dns_query buf with
  | ok p => exact Or.inl ⟨p, rfl⟩
  | err e => exact Or.inr ⟨e, rfl⟩
  | panic => exact absurd h hnp

/-! ### Transport error policy -/

/-- Counterexample to C9: a parse error on an individual stream connection
(frame of declared length 2 whose 2 bytes are too short to be a header)
completes that connection's unit of work with an error, and the top-level
loop — which joins datagram and stream work through the same
`result.unwrap()?` path — terminates serving on it, contrary to the claim
that stream read/parse errors end only that connection's work. -/
theorem claim_c9_counterexample :
    tcp_session wcfg0 [0, 2, 0, 0] = .error (.invalidData .headerTooShort) ∧
    serve_loop_outcome [tcp_session wcfg0 [0, 2, 0, 0]] =
      some (.invalidData .headerTooShort) := by
  decide

/-- C9 (amended): the first error surfaced by any completed unit of work —
datagram or stream alike — terminates the entire serving loop: (1) the loop
keeps serving iff every completed unit succeeded, (2) it stops at the first
error in completion order, (3)-(4) datagram work completes with an error on
parse and send failures, (5)-(6) end-of-stream at a frame boundary (or
inside the 2-byte length prefix) ends stream work without error, while
(7) a mid-frame end-of-stream and (8) a parse failure on a framed message
complete stream work with an error. -/
theorem claim_c9_first_error_stops_serving :
    (∀ results : List TaskResult,
      serve_loop_outcome results = none ↔ ∀ r ∈ results, r = .ok) ∧
    (∀ (pre post : List TaskResult) (e : IoErr),
      (∀ r ∈ pre, r = .ok) →
      serve_loop_outcome (pre ++ .error e :: post) = some e) ∧
    (∀ (config : ZoneConfig) (data : List Nat) (send : TaskResult)
        (e : PErr),
      parse_dns_query data = .err e →
      process_udp config data send = .error (.invalidData e)) ∧
    (∀ (config : ZoneConfig) (data : List Nat) (e : IoErr)
        (p rp : DnsPacket),
      parse_dns_query data = .ok p → construct_reply config p = some rp →
      process_udp config data (.error e) = .error e) ∧
    (∀ config : ZoneConfig, tcp_session config [] = .ok) ∧
    (∀ (config : ZoneConfig) (b : Nat), tcp_session config [b] = .ok) ∧
    (∀ (config : ZoneConfig) (a b : Nat) (rest : List Nat),
      rest.length < a * 256 + b →
      tcp_session config (a :: b :: rest) = .error .unexpectedEof) ∧
    (∀ (config : ZoneConfig) (a b : Nat) (rest : List Nat) (e : PErr),
      ¬ rest.length < a * 256 + b →
      parse_dns_query (rest.take (a * 256 + b)) = .err e →
      tcp_session config (a :: b :: rest) = .error (.invalidData e)) := by
  refine ⟨?_, ?_, ?_, ?_, ?_, ?_, ?_, ?_⟩
  · intro results
    induction results with
    | nil => simp [serve_loop_outcome]
    | cons r rest ih =>
      cases r with
      | ok => simpa [serve_loop_outcome] using ih
      | error e => simp [serve_loop_outcome]
  · intro pre
    induction pre with
    | nil => intro post e _; rfl
    | cons r pre' ih =>
      intro post e hok
      obtain rfl := hok r (by simp)
      simpa [serve_loop_outcome] using
        ih post e (fun x hx => hok x (by simp [hx]))
  · intro config data send e h
    simp [process_udp, h]
  · intro config data e p rp h1 h2
    simp [process_udp, h1, h2]
  · intro config
    rfl
  · intro config b
    rfl
  · intro config a b rest h
    simp [tcp_session, tcp_session_go, h]
  · intro config a b rest e h1 h2
    simp [tcp_session, tcp_session_go, h1, h2]

/-- Witness for the amended C9 at concrete inputs. -/
theorem claim_c9_first_error_stops_serving_witness :
    serve_loop_outcome [.ok, .error .sendFailed] = some .sendFailed ∧
    tcp_session wcfg0 [0, 5, 1, 2] = .error .unexpectedEof ∧
    process_udp wcfg0 [1, 2, 3] .ok =
      .error (.invalidData .headerTooShort) := by
  refine ⟨?_, ?_, ?_⟩
  · exact claim_c9_first_error_stops_serving.2.1 [.ok] [] .sendFailed
      (by decide)
  · exact claim_c9_first_error_stops_serving.2.2.2.2.2.2.1 wcfg0 0 5 [1, 2]
      (by decide)
  · exact claim_c9_first_error_stops_serving.2.2.1 wcfg0 [1, 2, 3] .ok
      .headerTooShort (by decide)

end ToyDns
